import Mathlib

/-!
Verification of the Musicbot playback/queue controller (src/cogs/music.py,
src/config.py) against its natural-language specification.

The controller state is embedded shallowly: a `Track` mirrors the wavelink
track descriptor used by the cog, a `Queue` mirrors the wavelink queue the
cog manipulates (its item buffer, play history, loop mode and retained
last-dequeued slot), and a `Player` mirrors the per-voice-session player
state. Each command handler of the `Music` cog becomes a pure function from
the player state (plus the externally resolved track list, where the source
calls the track resolver) to the new player state, the list of backend
commands issued, and the reply outcome. Message/embed text is out of scope
(a non-goal of the specification), so replies are abstract constructors.
-/

set_option autoImplicit false

/-- Track Reference: an immutable descriptor of one playable item, mirroring
the wavelink track fields the cog reads (title, author, uri, length in
milliseconds, optional isrc). -/
structure Track where
  title : String
  author : String
  uri : String
  length : Nat
  isrc : Option String
deriving DecidableEq, Repr

/-- Loop mode of the queue, mirroring wavelink QueueMode as set by the
`loop` command (src/cogs/music.py lines 485-493): `loop` is the code's
"track" mode, `loop_all` the code's "queue" mode, `normal` is "off". -/
inductive QueueMode where
  | normal
  | loop
  | loop_all
deriving DecidableEq, Repr

/-- Modelled from the spec: the wavelink playback queue the cog manipulates
is external library state, not part of src/. Following the specification's
queue component (section 4.1), it holds the buffered upcoming `items`, the
order-of-play `history` used to re-seed under `loop_all`, the loop `mode`,
and the retained last-dequeued track (`loaded`) that loop mode `loop`
re-returns without consuming the underlying sequence. -/
structure Queue where
  items : List Track
  history : List Track
  mode : QueueMode
  loaded : Option Track
deriving DecidableEq, Repr

/-- The wavelink queue emptiness test used by the cog (`player.queue.is_empty`,
src/cogs/music.py line 25): it inspects only the buffered item list. -/
def Queue.is_empty (q : Queue) : Bool :=
  q.items.isEmpty

/-- The wavelink enqueue used by `play` (`player.queue.put_wait(track)`,
src/cogs/music.py line 88): an unconditional append to the buffer — the
library queue is unbounded and the cog performs no capacity check. -/
def Queue.put_wait (q : Queue) (t : Track) : Queue :=
  { q with items := q.items ++ [t] }

/-- The raw deque front-insertion used by `playtop`
(`player.queue._queue.appendleft(track)`, src/cogs/music.py line 132):
direct mutation of the underlying buffer, bypassing any queue method. -/
def Queue.appendleft (q : Queue) (t : Track) : Queue :=
  { q with items := t :: q.items }

/-- The wavelink `queue.clear()` used by `stop` and `clear`
(src/cogs/music.py lines 276 and 436): empties the buffered items. -/
def Queue.clear (q : Queue) : Queue :=
  { q with items := [] }

/-- FIFO pop of the buffer, recording the popped track as `loaded` and in
the history; under `loop_all` an exhausted buffer is first re-seeded from
the history. Modelled from the spec: helper for `Queue.get` below. -/
def Queue.popSeed (q : Queue) : Option (Track × Queue) :=
  match q.items with
  | t :: rest =>
      some (t, { q with items := rest, history := q.history ++ [t], loaded := some t })
  | [] =>
      match q.mode with
      | QueueMode.loop_all =>
          match q.history with
          | t :: rest => some (t, { q with items := rest, history := [t], loaded := some t })
          | [] => none
      | _ => none

/-- Modelled from the spec: the wavelink `queue.get()` operation the cog
calls (src/cogs/music.py lines 28, 91, 135). It consults the loop mode
(spec section 4.1): under mode `loop` it re-returns the retained
last-dequeued track without consuming the underlying sequence; otherwise it
pops FIFO, re-seeding from history under `loop_all` when the buffer is
exhausted. -/
def Queue.get (q : Queue) : Option (Track × Queue) :=
  match q.mode, q.loaded with
  | QueueMode.loop, some t => some (t, q)
  | _, _ => q.popSeed

/-- The controller's queue-advance step exactly as the track-end handler
implements it (src/cogs/music.py lines 25-28): the handler first tests
`queue.is_empty` and only then calls `queue.get()`; this composite is the
code's realisation of the specification's `dequeueNext()`. -/
def dequeueNext (q : Queue) : Option (Track × Queue) :=
  if q.is_empty then none else q.get

/-- Maximum number of songs in the queue, src/config.py line 45. -/
def MAX_QUEUE_SIZE : Nat := 1000

def trackA : Track := ⟨"Track A", "Author A", "uri://a", 200000, none⟩

def trackB : Track := ⟨"Track B", "Author B", "uri://b", 180000, none⟩

def trackC : Track := ⟨"Track C", "Author C", "uri://c", 240000, some "ISRC-C"⟩

/-- A queue buffer already holding MAX_QUEUE_SIZE tracks. -/
def fullQueue : Queue := ⟨List.replicate MAX_QUEUE_SIZE trackA, [], QueueMode.normal, none⟩

theorem Queue.put_wait_items (q : Queue) (t : Track) :
    (q.put_wait t).items = q.items ++ [t] := rfl

theorem Queue.appendleft_items (q : Queue) (t : Track) :
    (Queue.appendleft q t).items = t :: q.items := rfl

/-- C1: the code enforces no capacity bound at all. `put_wait` (used by
`play`) and the raw `appendleft` (used by `playtop`) unconditionally append
respectively prepend, for every queue state — including a queue already at
MAX_QUEUE_SIZE, which grows to MAX_QUEUE_SIZE + 1 tracks instead of failing
with CapacityExceeded. -/
theorem enqueue_never_checks_capacity :
    (∀ (q : Queue) (t : Track), (q.put_wait t).items = q.items ++ [t]) ∧
    (∀ (q : Queue) (t : Track), (Queue.appendleft q t).items = t :: q.items) ∧
    (fullQueue.put_wait trackB).items.length = MAX_QUEUE_SIZE + 1 ∧
    (Queue.appendleft fullQueue trackB).items.length = MAX_QUEUE_SIZE + 1 := by
  refine ⟨fun q t => rfl, fun q t => rfl, ?_, ?_⟩
  · simp [Queue.put_wait, fullQueue]
  · simp [Queue.appendleft, fullQueue]

/-- Backend commands the cog issues to the audio node through the wavelink
player (play/pause/seek/stop/volume). -/
inductive Cmd where
  | play (t : Track)
  | pause (b : Bool)
  | stop
  | seek (pos : Int)
  | setVolume (v : Nat)
deriving DecidableEq, Repr

/-- Abstract status notifications sent to a channel (embed text itself is a
spec non-goal). -/
inductive Note where
  | nowPlaying (t : Track)
deriving DecidableEq, Repr

/-- Abstract command replies returned to the invoking context. -/
inductive Reply where
  | ok
  | nothingPlaying
  | invalidSeek
  | alreadyPaused
  | notPaused
deriving DecidableEq, Repr

/-- Per-voice-session player state as the cog uses it: the owned queue, the
current track (`player.current`, absent when idle), the pause flag, the
playback position in milliseconds, the volume, and the home notification
channel fixed at connection time (`player.home`, src/cogs/music.py
line 54). -/
structure Player where
  queue : Queue
  current : Option Track
  paused : Bool
  position : Int
  volume : Nat
  home : String
deriving DecidableEq, Repr

/-- The wavelink playing test used throughout the cog
(`player.is_playing()`): a current track is loaded. -/
def Player.is_playing (p : Player) : Bool :=
  p.current.isSome

/-- Result of the asynchronous track-end handler: the new player state, the
backend commands issued, and the notifications sent, each tagged with the
target channel. -/
structure TrackEndResult where
  player : Player
  cmds : List Cmd
  sends : List (String × Note)
deriving DecidableEq, Repr

/-- Music.on_wavelink_track_end, src/cogs/music.py lines 22-37. The backend
has just ended the current track, so `current` is cleared before the
handler body runs; the handler returns immediately when the queue buffer is
empty, otherwise plays `queue.get()` and sends a "Now Playing" notification
to the session's home channel. -/
def on_wavelink_track_end (p : Player) : TrackEndResult :=
  let p0 : Player := { p with current := none }
  if p0.queue.is_empty then
    ⟨p0, [], []⟩
  else
    match p0.queue.get with
    | none => ⟨p0, [], []⟩
    | some (t, q2) =>
        ⟨{ p0 with queue := q2, current := some t }, [Cmd.play t], [(p0.home, Note.nowPlaying t)]⟩

/-- Reply outcome of the `play` command. -/
inductive PlayOutcome where
  | noResults
  | nowPlaying (t : Track)
  | queued (t : Track) (pos : Nat)
deriving DecidableEq, Repr

/-- Music.play, src/cogs/music.py lines 70-109, for a live session. The
candidate list produced by the external track resolver
(wavelink.YouTubeTrack.search) is passed in as `resolved`. An empty result
is reported as "no tracks found" with no state change; otherwise the first
candidate is enqueued via `put_wait`, and if the player is not playing the
head of the queue is fetched and played, else the "Added to Queue" reply
reports position `len(player.queue)` as measured after the insertion. -/
def Music.play (p : Player) (resolved : List Track) : Player × List Cmd × PlayOutcome :=
  match resolved with
  | [] => (p, [], PlayOutcome.noResults)
  | track :: _ =>
      let q1 := p.queue.put_wait track
      if p.is_playing then
        ({ p with queue := q1 }, [], PlayOutcome.queued track q1.items.length)
      else
        match q1.get with
        | some (t, q2) =>
            ({ p with queue := q2, current := some t }, [Cmd.play t], PlayOutcome.nowPlaying t)
        | none => ({ p with queue := q1 }, [], PlayOutcome.noResults)

/-- Music.seek, src/cogs/music.py lines 332-362, for a live session. Takes
the target in whole seconds; rejects when nothing is playing, rejects a
negative argument or one whose millisecond value exceeds the current
track's length, and otherwise issues the backend seek to `seconds * 1000`. -/
def Music.seek (p : Player) (seconds : Int) : Player × List Cmd × Reply :=
  match p.current with
  | none => (p, [], Reply.nothingPlaying)
  | some t =>
      if seconds < 0 ∨ seconds * 1000 > (t.length : Int) then
        (p, [], Reply.invalidSeek)
      else
        ({ p with position := seconds * 1000 }, [Cmd.seek (seconds * 1000)], Reply.ok)

/-- Music.pause, src/cogs/music.py lines 220-242, for a live session:
rejects when already paused, otherwise issues the backend pause. -/
def Music.pause (p : Player) : Player × List Cmd × Reply :=
  if p.paused then
    (p, [], Reply.alreadyPaused)
  else
    ({ p with paused := true }, [Cmd.pause true], Reply.ok)

/-- Music.resume, src/cogs/music.py lines 244-266, for a live session:
rejects when not paused, otherwise issues the backend un-pause. -/
def Music.resume (p : Player) : Player × List Cmd × Reply :=
  if !p.paused then
    (p, [], Reply.notPaused)
  else
    ({ p with paused := false }, [Cmd.pause false], Reply.ok)

/-- Music.stop, src/cogs/music.py lines 268-283, for a live session:
unconditionally issues the backend stop (ending any current track) and then
clears the queue — there is no playing-state precondition. -/
def Music.stop (p : Player) : Player × List Cmd × Reply :=
  let p1 : Player := { p with current := none }
  ({ p1 with queue := Queue.clear p1.queue }, [Cmd.stop], Reply.ok)

/-- Music.remove, src/cogs/music.py lines 388-419, for a live session. The
1-based `position` is validated (the source reports an empty queue and an
out-of-range position through two distinct messages; message text is a spec
non-goal, so both rejections are the `none` outcome here), then the track
at index `position - 1` is read and deleted from the underlying deque. -/
def Music.remove (q : Queue) (position : Int) : Option (Track × Queue) :=
  if q.items.length = 0 then
    none
  else if position < 1 ∨ position > (q.items.length : Int) then
    none
  else
    match q.items.get? (position - 1).toNat with
    | none => none
    | some t => some (t, { q with items := q.items.eraseIdx (position - 1).toNat })

/-- Music.rewind, src/cogs/music.py lines 580-603, for a live session:
rejects when nothing is playing, otherwise seeks to
`max(0, position - seconds * 1000)` — clamped below at 0 only. -/
def Music.rewind (p : Player) (seconds : Int) : Player × List Cmd × Reply :=
  match p.current with
  | none => (p, [], Reply.nothingPlaying)
  | some _ =>
      let new_position := max 0 (p.position - seconds * 1000)
      ({ p with position := new_position }, [Cmd.seek new_position], Reply.ok)

/-- Music.forward, src/cogs/music.py lines 605-628, for a live session:
rejects when nothing is playing, otherwise seeks to
`min(track.length, position + seconds * 1000)` — clamped above at the
track length only. -/
def Music.forward (p : Player) (seconds : Int) : Player × List Cmd × Reply :=
  match p.current with
  | none => (p, [], Reply.nothingPlaying)
  | some t =>
      let new_position := min (t.length : Int) (p.position + seconds * 1000)
      ({ p with position := new_position }, [Cmd.seek new_position], Reply.ok)

/-- Fixed width of the textual progress indicator
(src/cogs/music.py line 657, parameter `bar_length`). -/
def bar_length : Nat := 20

/-- The filled-cell count of Music._create_progress_bar, src/cogs/music.py
lines 657-665. Python float arithmetic is modelled as exact rational
arithmetic, and the `int()` truncation of the non-negative value
`bar_length * percent` as the natural floor; the `total == 0` guard yields
percent 0 without dividing. -/
def Music.create_progress_bar_filled (current total : Nat) : Nat :=
  let percent : ℚ := if total = 0 then 0 else (current : ℚ) / (total : ℚ)
  Nat.floor ((bar_length : ℚ) * percent)

theorem Queue.get_isSome_of_items_ne_nil (q : Queue) (h : q.items ≠ []) :
    q.get.isSome := by
  rcases q with ⟨items, hist, mode, loaded⟩
  cases items with
  | nil => exact absurd rfl h
  | cons x rest =>
      cases mode <;> cases loaded <;> simp [Queue.get, Queue.popSeed]

/-- C2: on a backend track-end event received while a track is loaded
(Playing or Paused), the handler advances with the code's dequeue step: if
it yields a track, that track is played on the backend and a "now playing"
notification goes to the session's home channel; if it yields nothing, the
session ends up idle (no current track) with no backend command and no
notification. -/
theorem trackEnd_advances_or_idles (p : Player) (c : Track) (_hc : p.current = some c) :
    (∀ t q2, dequeueNext p.queue = some (t, q2) →
      on_wavelink_track_end p =
        ⟨{ p with queue := q2, current := some t }, [Cmd.play t],
          [(p.home, Note.nowPlaying t)]⟩) ∧
    (dequeueNext p.queue = none →
      on_wavelink_track_end p = ⟨{ p with current := none }, [], []⟩) := by
  constructor
  · intro t q2 h
    unfold dequeueNext at h
    by_cases he : p.queue.is_empty
    · simp [he] at h
    · simp only [he, Bool.false_eq_true, if_false] at h
      unfold on_wavelink_track_end
      simp [he, h]
  · intro h
    unfold dequeueNext at h
    by_cases he : p.queue.is_empty
    · unfold on_wavelink_track_end
      simp [he]
    · simp only [he, Bool.false_eq_true, if_false] at h
      unfold on_wavelink_track_end
      simp [he, h]

def playingPlayerAB : Player :=
  ⟨⟨[trackB], [], QueueMode.normal, none⟩, some trackA, false, 0, 100, "general"⟩

/-- The queue of `playingPlayerAB` after its head was dequeued. -/
def dequeuedQueueB : Queue := ⟨[], [trackB], QueueMode.normal, some trackB⟩

theorem trackEnd_advances_or_idles_witness :
    on_wavelink_track_end playingPlayerAB =
      ⟨{ playingPlayerAB with queue := dequeuedQueueB, current := some trackB },
        [Cmd.play trackB], [(playingPlayerAB.home, Note.nowPlaying trackB)]⟩ :=
  (trackEnd_advances_or_idles playingPlayerAB trackA rfl).1 trackB dequeuedQueueB rfl

/-- C3: for a live session, `play` with an empty resolver result reports no
results and changes nothing; with a nonempty result it enqueues the first
candidate, and then either (idle session) immediately dequeues the fetched
track and starts playing it on the backend, or (already playing) leaves it
appended and reports queue position `size()` measured at the insertion. -/
theorem play_contract (p : Player) (resolved : List Track) :
    (resolved = [] → Music.play p resolved = (p, [], PlayOutcome.noResults)) ∧
    (∀ t ts, resolved = t :: ts →
      (p.current.isSome = true →
        Music.play p resolved =
          ({ p with queue := p.queue.put_wait t }, [],
            PlayOutcome.queued t (p.queue.items.length + 1))) ∧
      (p.current = none →
        ∃ t2 q2, (p.queue.put_wait t).get = some (t2, q2) ∧
          Music.play p resolved =
            ({ p with queue := q2, current := some t2 }, [Cmd.play t2],
              PlayOutcome.nowPlaying t2))) := by
  refine ⟨?_, ?_⟩
  · rintro rfl; rfl
  · rintro t ts rfl
    refine ⟨?_, ?_⟩
    · intro hs
      unfold Music.play
      simp [Player.is_playing, hs, Queue.put_wait]
    · intro hn
      have hne : (p.queue.put_wait t).items ≠ [] := by simp [Queue.put_wait]
      have hs := Queue.get_isSome_of_items_ne_nil _ hne
      rcases Option.isSome_iff_exists.mp hs with ⟨⟨t2, q2⟩, hget⟩
      refine ⟨t2, q2, hget, ?_⟩
      unfold Music.play
      simp [Player.is_playing, hn, hget]

def playingPlayer : Player :=
  ⟨⟨[], [], QueueMode.normal, none⟩, some trackA, false, 5000, 100, "general"⟩

theorem play_contract_witness :
    Music.play playingPlayer [trackB] =
      ({ playingPlayer with queue := playingPlayer.queue.put_wait trackB }, [],
        PlayOutcome.queued trackB (playingPlayer.queue.items.length + 1)) :=
  ((play_contract playingPlayer [trackB]).2 trackB [] rfl).1 rfl

/-- State reached after loop mode "track" was enabled while the only track
was playing: the queue buffer is empty, the playing track is retained in
the `loaded` slot. -/
def loopQueue : Queue := ⟨[], [trackA], QueueMode.loop, some trackA⟩

def loopPlayer : Player := ⟨loopQueue, some trackA, false, 0, 100, "general"⟩

/-- C4: under loop mode "track" with an empty buffer, the library dequeue
would re-return the retained track without shrinking anything — but the
track-end handler's emptiness guard fires first, so its advance step yields
nothing and the session goes idle with no backend play and no notification:
the track is never replayed, contradicting the enabled track-loop mode. -/
theorem loop_track_not_replayed_when_buffer_empty :
    loopQueue.mode = QueueMode.loop ∧
    Queue.get loopQueue = some (trackA, loopQueue) ∧
    dequeueNext loopQueue = none ∧
    on_wavelink_track_end loopPlayer = ⟨{ loopPlayer with current := none }, [], []⟩ :=
  ⟨rfl, rfl, rfl, rfl⟩

/-- C5: `seek` on a live session rejects when nothing is playing; with a
current track it rejects exactly the arguments that are negative or whose
millisecond value exceeds the track duration, leaving the state untouched,
and otherwise issues the backend seek to that position. -/
theorem seek_contract (p : Player) (seconds : Int) :
    (p.current = none → Music.seek p seconds = (p, [], Reply.nothingPlaying)) ∧
    (∀ t, p.current = some t →
      ((seconds < 0 ∨ seconds * 1000 > (t.length : Int)) →
        Music.seek p seconds = (p, [], Reply.invalidSeek)) ∧
      (¬(seconds < 0 ∨ seconds * 1000 > (t.length : Int)) →
        Music.seek p seconds =
          ({ p with position := seconds * 1000 }, [Cmd.seek (seconds * 1000)], Reply.ok))) := by
  refine ⟨?_, ?_⟩
  · intro h
    unfold Music.seek
    simp [h]
  · intro t ht
    refine ⟨?_, ?_⟩ <;> intro hcond <;> unfold Music.seek <;> simp [ht, hcond]

theorem seek_contract_witness :
    Music.seek playingPlayer 100 =
      ({ playingPlayer with position := 100 * 1000 }, [Cmd.seek (100 * 1000)], Reply.ok) :=
  ((seek_contract playingPlayer 100).2 trackA rfl).2 (by decide)

/-- C6: the 1-based `remove` command fails exactly when the position is
below 1 or above the queue size (the queue unchanged, since the failing
paths return it untouched); on success the addressed track is returned and
the items become the slice before it followed by the slice after it, so
every later track shifts down one position; concretely, removing position 2
of three tracks leaves the original 1st and 3rd at positions 1 and 2. -/
theorem remove_contract (q : Queue) (position : Int) :
    (Music.remove q position = none ↔
      position < 1 ∨ position > (q.items.length : Int)) ∧
    (∀ t q2, Music.remove q position = some (t, q2) →
      q.items.get? (position - 1).toNat = some t ∧
      q2.items =
        q.items.take (position - 1).toNat ++ q.items.drop ((position - 1).toNat + 1) ∧
      q2.history = q.history ∧ q2.mode = q.mode ∧ q2.loaded = q.loaded) ∧
    Music.remove ⟨[trackA, trackB, trackC], [], QueueMode.normal, none⟩ 2 =
      some (trackB, ⟨[trackA, trackC], [], QueueMode.normal, none⟩) := by
  refine ⟨⟨?_, ?_⟩, ?_, by decide⟩
  · intro h
    by_contra hc
    push_neg at hc
    obtain ⟨h1, h2⟩ := hc
    have h0 : ¬ q.items.length = 0 := by omega
    have hi : (position - 1).toNat < q.items.length := by omega
    unfold Music.remove at h
    rw [if_neg h0, if_neg (by omega)] at h
    rw [List.get?_eq_get hi] at h
    simp at h
  · intro hc
    unfold Music.remove
    by_cases h0 : q.items.length = 0
    · rw [if_pos h0]
    · rw [if_neg h0, if_pos hc]
  · intro t q2 h
    unfold Music.remove at h
    by_cases h0 : q.items.length = 0
    · rw [if_pos h0] at h
      exact absurd h (by simp)
    · rw [if_neg h0] at h
      by_cases hc : position < 1 ∨ position > (q.items.length : Int)
      · rw [if_pos hc] at h
        exact absurd h (by simp)
      · rw [if_neg hc] at h
        cases hg : q.items.get? (position - 1).toNat with
        | none =>
            rw [hg] at h
            exact absurd h (by simp)
        | some t3 =>
            rw [hg] at h
            simp only [Option.some.injEq, Prod.mk.injEq] at h
            obtain ⟨ht3, hq2⟩ := h
            subst ht3
            subst hq2
            exact ⟨rfl, List.eraseIdx_eq_take_drop_succ _ _, rfl, rfl, rfl⟩

theorem remove_contract_witness :
    Music.remove ⟨[trackA, trackB], [], QueueMode.normal, none⟩ 3 = none :=
  (remove_contract ⟨[trackA, trackB], [], QueueMode.normal, none⟩ 3).1.mpr (by decide)

/-- A session playing trackA at position 0. -/
def playerAtStart : Player :=
  ⟨⟨[], [], QueueMode.normal, none⟩, some trackA, false, 0, 100, "general"⟩

/-- C7 counterexample: with trackA (duration 200000 ms) playing at position
0, `forward(-10)` raises no error but seeks the backend to -10000 ms,
outside the interval [0, duration] the claim promises — only the upper
bound is clamped in `forward`, only the lower bound in `rewind`. -/
theorem forward_negative_argument_escapes_range :
    (Music.forward playerAtStart (-10)).2.2 = Reply.ok ∧
    (Music.forward playerAtStart (-10)).2.1 = [Cmd.seek (-10000)] ∧
    (Music.forward playerAtStart (-10)).1.position = -10000 ∧
    ¬(0 ≤ (Music.forward playerAtStart (-10)).1.position) := by
  refine ⟨rfl, rfl, rfl, by decide⟩

/-- C7 amended: for every NON-NEGATIVE amount N, with a current track and a
playback position inside [0, duration], `rewind(N)` and `forward(N)` never
error and the resulting position stays clamped inside [0, duration]; for a
negative N each command enforces only its own bound (rewind the lower,
forward the upper), so the result can leave the interval. -/
theorem relative_seek_clamped_for_nonneg (p : Player) (t : Track) (N : Int)
    (hc : p.current = some t) (hN : 0 ≤ N) (h0 : 0 ≤ p.position)
    (hd : p.position ≤ (t.length : Int)) :
    (Music.rewind p N).2.2 = Reply.ok ∧
    0 ≤ (Music.rewind p N).1.position ∧
    (Music.rewind p N).1.position ≤ (t.length : Int) ∧
    (Music.forward p N).2.2 = Reply.ok ∧
    0 ≤ (Music.forward p N).1.position ∧
    (Music.forward p N).1.position ≤ (t.length : Int) := by
  have hN1000 : 0 ≤ N * 1000 := by omega
  unfold Music.rewind Music.forward
  simp only [hc]
  refine ⟨trivial, ?_, ?_, trivial, ?_, ?_⟩
  · exact le_max_left 0 _
  · exact max_le (Int.ofNat_nonneg t.length) (by omega)
  · exact le_min (Int.ofNat_nonneg t.length) (by omega)
  · exact min_le_left _ _

/-- A session playing trackA at position 50000 ms. -/
def playerMid : Player :=
  ⟨⟨[], [], QueueMode.normal, none⟩, some trackA, false, 50000, 100, "general"⟩

theorem relative_seek_clamped_for_nonneg_witness :
    (Music.rewind playerMid 10).2.2 = Reply.ok ∧
    0 ≤ (Music.rewind playerMid 10).1.position ∧
    (Music.rewind playerMid 10).1.position ≤ (trackA.length : Int) ∧
    (Music.forward playerMid 10).2.2 = Reply.ok ∧
    0 ≤ (Music.forward playerMid 10).1.position ∧
    (Music.forward playerMid 10).1.position ≤ (trackA.length : Int) :=
  relative_seek_clamped_for_nonneg playerMid trackA 10 rfl (by decide) (by decide) (by decide)

/-- C8: the progress indicator's filled-cell count equals
floor(barWidth * elapsed / duration) with barWidth fixed at 20 (a natural
division computes exactly that floor), and a zero duration yields 0 filled
cells with no division performed. -/
theorem progress_bar_filled_is_floor (current total : Nat) :
    Music.create_progress_bar_filled current total = bar_length * current / total ∧
    Music.create_progress_bar_filled current 0 = 0 ∧
    bar_length = 20 := by
  refine ⟨?_, by simp [Music.create_progress_bar_filled], rfl⟩
  unfold Music.create_progress_bar_filled
  by_cases h : total = 0
  · subst h
    simp
  · have hcast : (bar_length : ℚ) * ((current : ℚ) / (total : ℚ)) =
        ((bar_length * current : ℕ) : ℚ) / ((total : ℕ) : ℚ) := by
      push_cast
      ring
    simp only [if_neg h]
    rw [hcast, Nat.floor_div_nat, Nat.floor_natCast]

/-- C9: `pause` on a live session fails exactly when already paused and
otherwise issues the backend pause; `resume` fails exactly when not paused
and otherwise issues the backend un-pause; each failure returns the state
unchanged with no backend command. -/
theorem pause_resume_contract (p : Player) :
    (p.paused = true → Music.pause p = (p, [], Reply.alreadyPaused)) ∧
    (p.paused = false →
      Music.pause p = ({ p with paused := true }, [Cmd.pause true], Reply.ok)) ∧
    (p.paused = false → Music.resume p = (p, [], Reply.notPaused)) ∧
    (p.paused = true →
      Music.resume p = ({ p with paused := false }, [Cmd.pause false], Reply.ok)) := by
  refine ⟨?_, ?_, ?_, ?_⟩ <;> intro h <;> simp [Music.pause, Music.resume, h]

theorem pause_resume_contract_witness :
    Music.pause playingPlayer =
      ({ playingPlayer with paused := true }, [Cmd.pause true], Reply.ok) :=
  (pause_resume_contract playingPlayer).2.1 rfl

/-- C10: `stop` on a live session has no playing-state precondition: for
every player state — idle or not, queue empty or not — it succeeds, issues
exactly the backend stop, and leaves an empty queue and no current track. -/
theorem stop_no_precondition (p : Player) :
    Music.stop p =
      ({ p with current := none, queue := Queue.clear p.queue }, [Cmd.stop], Reply.ok) ∧
    (Music.stop p).1.queue.items = [] ∧
    (Music.stop p).1.current = none ∧
    (Music.stop p).2.1 = [Cmd.stop] ∧
    (Music.stop p).2.2 = Reply.ok :=
  ⟨rfl, rfl, rfl, rfl, rfl⟩
